import Mathlib

/-
  Verification of the Excalibur Rain stacking game (`main.js`).

  The development embeds the game's core logic shallowly:
  * the verticality classifier from the `collisionStart` handler, over real angles;
  * the procedural island geometry of `WorldGenerator.createIsland`, over real
    coordinates with the noise source kept abstract;
  * the session state (`Game`), the spawn handler, the `beforeUpdate` boundary
    monitor, the collision handler, score saving and reset, over exact
    rational/integer state, together with a step relation describing the
    reachable session states.
-/

set_option maxHeartbeats 1000000

/-- JavaScript remainder on reals: `a % b = a - b * trunc (a / b)`; the result
takes the sign of the dividend (truncated division, not floored). -/
noncomputable def jsRem (a b : ℝ) : ℝ :=
  if 0 ≤ a / b then a - b * ⌊a / b⌋ else a - b * ⌈a / b⌉

/-- Mathematical normalization of an angle into `[0, 2π)`. -/
noncomputable def normalizeAngle (θ : ℝ) : ℝ :=
  θ - 2 * Real.pi * ⌊θ / (2 * Real.pi)⌋

/-- The verticality test of the `collisionStart` handler:
`const angle = sword.angle % (Math.PI * 2);`
`Math.abs(angle) < 0.8 || Math.abs(angle) > Math.PI * 2 - 0.8`. -/
noncomputable def isVertical (θ : ℝ) : Prop :=
  |jsRem θ (2 * Real.pi)| < 0.8 ∨ |jsRem θ (2 * Real.pi)| > 2 * Real.pi - 0.8

/-- A Matter.js body as the game uses it: identity, label, position, velocity,
angular velocity, angle and the static flag.  `id` models JavaScript object
identity (`World.remove` removes a specific object). -/
structure MBody where
  id : ℕ
  label : String
  posX : ℚ
  posY : ℚ
  velX : ℚ
  velY : ℚ
  angularVelocity : ℚ
  angle : ℝ
  isStatic : Bool

/-- The session state: the fields of the `Game` object together with the
physics world's body list, the `WorldGenerator.islandBody` reference and a
fresh-identity counter for newly created bodies. -/
structure GState where
  lives : ℤ
  swordsOnScreen : ℤ
  isPlaying : Bool
  lastSpawnTime : ℤ
  highScores : List ℤ
  bodies : List MBody
  islandRef : Option ℕ
  nextId : ℕ

/-- The static island body registered by `WorldGenerator.createIsland`:
label `"ground"`, positioned at the centroid `(centerX, centerY)` computed from
the viewport width `W` and height `Hc` (`startX = 0.3 W`, `endX = 0.55 W`,
`surfaceY = Hc - 150`, `centerY = surfaceY + 250 / 2`).  Its identity is the
reserved id 0. -/
def islandMBody (W Hc : ℚ) : MBody :=
  { id := 0
    label := "ground"
    posX := W * (3 / 10) + (W * (11 / 20) - W * (3 / 10)) / 2
    posY := (Hc - 150) + 250 / 2
    velX := 0
    velY := 0
    angularVelocity := 0
    angle := 0
    isStatic := true }

/-- `WorldGenerator.createIsland` acting on the session state: remove the
previously registered island body if one exists, then add the newly generated
static `"ground"` body. -/
def createIsland (W Hc : ℚ) (s : GState) : GState :=
  let s1 := match s.islandRef with
    | some i => { s with bodies := s.bodies.filter (fun b => b.id != i) }
    | none => s
  { s1 with bodies := s1.bodies ++ [islandMBody W Hc], islandRef := some 0 }

/-- The session state at page load: the initial `Game` fields (`lives = 3`,
`swordsOnScreen = 0`, `isPlaying = true`, `lastSpawnTime = 0`; `highScores` as
loaded from storage) followed by the initial `WorldGenerator.createIsland()`
call. -/
def initState (W Hc : ℚ) (hs0 : List ℤ) : GState :=
  createIsland W Hc
    { lives := 3
      swordsOnScreen := 0
      isPlaying := true
      lastSpawnTime := 0
      highScores := hs0
      bodies := []
      islandRef := none
      nextId := 1 }

/-- The rectangle body built by `spawnSword`: label `"sword"`, centered at the
click's x position and the fixed spawn height `SPAWN_Y = -500`, angle 0, with
the random initial angular velocity `ω` drawn by the caller. -/
def newSword (x ω : ℚ) (i : ℕ) : MBody :=
  { id := i
    label := "sword"
    posX := x
    posY := -500
    velX := 0
    velY := 0
    angularVelocity := ω
    angle := 0
    isStatic := false }

/-- `spawnSword(x)`: add the new sword body to the world and increment the
on-screen sword counter. -/
def spawnSword (x ω : ℚ) (s : GState) : GState :=
  { s with
    bodies := s.bodies ++ [newSword x ω s.nextId]
    nextId := s.nextId + 1
    swordsOnScreen := s.swordsOnScreen + 1 }

/-- The `mousedown` handler: reject when not playing, reject when the cooldown
(`COOLDOWN = 500` ms) has not elapsed since `lastSpawnTime`, otherwise spawn a
sword and record the spawn time. -/
def mousedownHandler (x ω : ℚ) (now : ℤ) (s : GState) : GState :=
  if s.isPlaying = false then s
  else if now - s.lastSpawnTime < 500 then s
  else { spawnSword x ω s with lastSpawnTime := now }

/-- `Game.saveScore`: push the current sword count, sort descending with the
stable comparator `(a, b) => b - a`, and keep the first three entries. -/
def saveScore (s : GState) : GState :=
  { s with
    highScores :=
      (List.insertionSort (· ≥ ·) (s.highScores ++ [s.swordsOnScreen])).take 3 }

/-- `triggerGameOver`: stop play and persist the score. -/
def triggerGameOver (s : GState) : GState :=
  saveScore { s with isPlaying := false }

/-- `triggerLifeLoss`: decrement `lives`; if `lives <= 0` afterwards, trigger
game over. -/
def triggerLifeLoss (s : GState) : GState :=
  if s.lives - 1 ≤ 0 then triggerGameOver { s with lives := s.lives - 1 }
  else { s with lives := s.lives - 1 }

/-- The body of the `beforeUpdate` handler's `forEach`: if the body is labeled
`"sword"` and has fallen past `canvas.height + 400`, remove it from the world,
decrement the sword counter, and trigger a life loss. -/
def voidCheck (Hc : ℚ) (s : GState) (b : MBody) : GState :=
  if b.label = "sword" ∧ b.posY > Hc + 400 then
    triggerLifeLoss
      { s with
        bodies := s.bodies.filter (fun x => x.id != b.id)
        swordsOnScreen := s.swordsOnScreen - 1 }
  else s

/-- The `beforeUpdate` handler: a no-op unless `isPlaying`; otherwise run
`voidCheck` over a snapshot of the world's body list taken at entry. -/
def beforeUpdate (Hc : ℚ) (s : GState) : GState :=
  if s.isPlaying = false then s else s.bodies.foldl (voidCheck Hc) s

/-- The effect of `Body.setStatic(sword, true)`, `Body.setVelocity(sword,
{x:0, y:0})` and `Body.setAngularVelocity(sword, 0)` on a body. -/
def pinnedOf (b : MBody) : MBody :=
  { b with isStatic := true, velX := 0, velY := 0, angularVelocity := 0 }

/-- Pin the body with identity `i` inside a body list. -/
def pinBody (i : ℕ) (l : List MBody) : List MBody :=
  l.map (fun b => if b.id = i then pinnedOf b else b)

open Classical in
/-- The per-pair body of the `collisionStart` handler: pick the sword member
(`bodyA` first), and when it is a non-static sword hitting the `"ground"` body
and the verticality test passes, freeze it in place; otherwise do nothing. -/
noncomputable def collisionPairStep (bodyA bodyB : MBody) (s : GState) : GState :=
  if bodyA.label = "sword" then
    if bodyA.isStatic = false ∧ bodyB.label = "ground" then
      if isVertical bodyA.angle then { s with bodies := pinBody bodyA.id s.bodies }
      else s
    else s
  else if bodyB.label = "sword" then
    if bodyB.isStatic = false ∧ bodyA.label = "ground" then
      if isVertical bodyB.angle then { s with bodies := pinBody bodyB.id s.bodies }
      else s
    else s
  else s

/-- `Game.reset`: restore the initial counters and flags, clear the physics
world, and regenerate the island. -/
def resetState (W Hc : ℚ) (s : GState) : GState :=
  createIsland W Hc
    { s with
      lives := 3
      swordsOnScreen := 0
      isPlaying := true
      lastSpawnTime := 0
      bodies := [] }

/-- One observable transition of the session: a pointer press, an engine tick's
`beforeUpdate` callback, a `collisionStart` pair delivered by the engine, a
motion of the non-static bodies by the external physics integrator, or an
explicit restart.  The physics contract only guarantees that integration
preserves identity, label and the static flag, and never moves static
bodies. -/
inductive Step (W Hc : ℚ) : GState → GState → Prop
  | pointerDown {s : GState} (x ω : ℚ) (now : ℤ) (hω : |ω| ≤ 1 / 100) :
      Step W Hc s (mousedownHandler x ω now s)
  | engineUpdate {s : GState} : Step W Hc s (beforeUpdate Hc s)
  | collision {s : GState} (a b : MBody) (ha : a ∈ s.bodies) (hb : b ∈ s.bodies) :
      Step W Hc s (collisionPairStep a b s)
  | physicsMove {s : GState} (f : MBody → MBody)
      (hf : ∀ b, (f b).id = b.id ∧ (f b).label = b.label ∧
            (f b).isStatic = b.isStatic ∧ ((f b).isStatic = true → f b = b)) :
      Step W Hc s { s with bodies := s.bodies.map f }
  | restart {s : GState} : Step W Hc s (resetState W Hc s)

/-- The session states reachable from page load with stored scores `hs0`. -/
def Reachable (W Hc : ℚ) (hs0 : List ℤ) (s : GState) : Prop :=
  Relation.ReflTransGen (Step W Hc) (initState W Hc hs0) s

/-- A physics motion dropping every non-static body to `y = 5000`. -/
def fall5000 : MBody → MBody :=
  fun b => if b.isStatic = true then b else { b with posY := 5000 }

/-- Island geometry (`WorldGenerator.createIsland`), over real coordinates.
`iStartX W = canvas.width * START_PCT`. -/
noncomputable def iStartX (W : ℝ) : ℝ := W * (3 / 10)

/-- `iEndX W = canvas.width * END_PCT`. -/
noncomputable def iEndX (W : ℝ) : ℝ := W * (11 / 20)

/-- The island's horizontal span `width = endX - startX`. -/
noncomputable def iWidth (W : ℝ) : ℝ := iEndX W - iStartX W

/-- The nominal surface height `surfaceY = canvas.height - 150`. -/
noncomputable def iSurfaceY (Hc : ℝ) : ℝ := Hc - 150

/-- Number of samples of each pass: the loops `for (x = 0; x <= width; x += 15)`
and `for (x = width; x >= 0; x -= 15)` both run `⌊width / 15⌋ + 1` times. -/
noncomputable def iSampleCount (W : ℝ) : ℕ := (⌊iWidth W / 15⌋).toNat + 1

/-- A top-pass vertex: noise sampled at `((x + startX) * NOISE_SCALE, 0)`,
surface offset by `noise * 40`. -/
noncomputable def topPoint (noise : ℝ → ℝ → ℝ) (W Hc x : ℝ) : ℝ × ℝ :=
  (iStartX W + x, iSurfaceY Hc + noise ((x + iStartX W) * (5 / 1000)) 0 * 40)

/-- A bottom-pass vertex: noise sampled at `((x + startX) * 0.01, 100)`, the
`DEPTH * sin((x / width) * π)` belly arc and a `noise * 60` offset. -/
noncomputable def bottomPoint (noise : ℝ → ℝ → ℝ) (W Hc x : ℝ) : ℝ × ℝ :=
  (iStartX W + x,
    iSurfaceY Hc + 250 * Real.sin (x / iWidth W * Real.pi) +
      noise ((x + iStartX W) * (1 / 100)) 100 * 60)

/-- Pass 1 of `createIsland`: surface vertices at `x = 0, 15, …` while
`x ≤ width`. -/
noncomputable def topPass (noise : ℝ → ℝ → ℝ) (W Hc : ℝ) : List (ℝ × ℝ) :=
  (List.range (iSampleCount W)).map (fun n : ℕ => topPoint noise W Hc (15 * (n:ℝ)))

/-- Pass 2 of `createIsland`: bottom vertices at `x = width, width - 15, …`
while `x ≥ 0`. -/
noncomputable def bottomPass (noise : ℝ → ℝ → ℝ) (W Hc : ℝ) : List (ℝ × ℝ) :=
  (List.range (iSampleCount W)).map
    (fun k : ℕ => bottomPoint noise W Hc (iWidth W - 15 * (k:ℝ)))

/-- The full vertex sequence handed to `Bodies.fromVertices`. -/
noncomputable def islandVertices (noise : ℝ → ℝ → ℝ) (W Hc : ℝ) : List (ℝ × ℝ) :=
  topPass noise W Hc ++ bottomPass noise W Hc

/-- The everywhere-zero noise source, a legal bounded continuous sample. -/
noncomputable def zeroNoise : ℝ → ℝ → ℝ := fun _ _ => 0

/-- The constant `-1/2` noise source, a legal bounded continuous sample. -/
noncomputable def negHalfNoise : ℝ → ℝ → ℝ := fun _ _ => -(1 / 2)

/-- A bounded continuous noise source worth `1` on the top pass's noise row
(`y = 0`) and `-1` on the bottom pass's noise row (`y = 100`). -/
noncomputable def gapNoise : ℝ → ℝ → ℝ :=
  fun _ y => 1 - min 2 (max 0 (y / 50))

/-- A non-static sword body resting far below the void threshold. -/
def swordBelow : MBody :=
  { id := 1, label := "sword", posX := 100, posY := 5000, velX := 0, velY := 0,
    angularVelocity := 0, angle := 0, isStatic := false }

/-- A pinned (static) sword resting on the island surface. -/
def staticSwordUp : MBody :=
  { id := 1, label := "sword", posX := 500, posY := 650, velX := 0, velY := 0,
    angularVelocity := 0, angle := 0, isStatic := true }

/-- A second non-static sword below the void threshold. -/
def swordBelow2 : MBody :=
  { id := 2, label := "sword", posX := 520, posY := 5000, velX := 0, velY := 0,
    angularVelocity := 0, angle := 0, isStatic := false }

/-- A falling sword in contact with the ground, upright (angle 0). -/
def uprightSword : MBody :=
  { id := 5, label := "sword", posX := 400, posY := 600, velX := 0, velY := 3,
    angularVelocity := 1 / 2, angle := 0, isStatic := false }

/-- A game-over session state with a sword below the void threshold. -/
def gameOverSample : GState :=
  { lives := 0, swordsOnScreen := 2, isPlaying := false, lastSpawnTime := 900,
    highScores := [2, 0, 0], bodies := [islandMBody 1200 800, swordBelow],
    islandRef := some 0, nextId := 2 }

/-- A playing session state holding a pinned sword on the surface and a
falling sword below the void threshold. -/
def c4Sample : GState :=
  { lives := 3, swordsOnScreen := 2, isPlaying := true, lastSpawnTime := 0,
    highScores := [0, 0, 0],
    bodies := [islandMBody 1200 800, staticSwordUp, swordBelow2],
    islandRef := some 0, nextId := 3 }

/-- A playing session state holding the island and one falling sword. -/
def c5Sample : GState :=
  { lives := 3, swordsOnScreen := 1, isPlaying := true, lastSpawnTime := 600,
    highScores := [0, 0, 0], bodies := [islandMBody 1200 800, uprightSword],
    islandRef := some 0, nextId := 6 }

theorem two_pi_pos : (0:ℝ) < 2 * Real.pi := by positivity

theorem two_pi_gt_six : (6:ℝ) < 2 * Real.pi := by
  have h := Real.pi_gt_three
  linarith

theorem normalizeAngle_eq (θ : ℝ) :
    normalizeAngle θ = 2 * Real.pi * Int.fract (θ / (2 * Real.pi)) := by
  have hT : (2 * Real.pi) ≠ 0 := ne_of_gt two_pi_pos
  have hc : 2 * Real.pi * (θ / (2 * Real.pi)) = θ := by field_simp
  rw [normalizeAngle, Int.fract, mul_sub, hc]

theorem normalizeAngle_nonneg (θ : ℝ) : 0 ≤ normalizeAngle θ := by
  rw [normalizeAngle_eq]
  exact mul_nonneg two_pi_pos.le (Int.fract_nonneg _)

theorem normalizeAngle_lt (θ : ℝ) : normalizeAngle θ < 2 * Real.pi := by
  rw [normalizeAngle_eq]
  calc 2 * Real.pi * Int.fract (θ / (2 * Real.pi)) < 2 * Real.pi * 1 :=
        mul_lt_mul_of_pos_left (Int.fract_lt_one _) two_pi_pos
    _ = 2 * Real.pi := mul_one _

theorem isVertical_iff_norm (θ : ℝ) :
    isVertical θ ↔
      (normalizeAngle θ < 0.8 ∨ normalizeAngle θ > 2 * Real.pi - 0.8) := by
  have hT : (0:ℝ) < 2 * Real.pi := two_pi_pos
  have hfr := normalizeAngle_eq θ
  have hn0 := normalizeAngle_nonneg θ
  rcases le_or_lt 0 θ with hθ | hθ
  · have hq0 : 0 ≤ θ / (2 * Real.pi) := div_nonneg hθ hT.le
    have hr : jsRem θ (2 * Real.pi) = normalizeAngle θ := by
      rw [jsRem, if_pos hq0, normalizeAngle]
    unfold isVertical
    rw [hr, abs_of_nonneg hn0]
  · have hq0 : θ / (2 * Real.pi) < 0 := div_neg_of_neg_of_pos hθ hT
    rcases eq_or_ne (Int.fract (θ / (2 * Real.pi))) 0 with hf | hf
    · have hsum := Int.floor_add_fract (θ / (2 * Real.pi))
      rw [hf, add_zero] at hsum
      have hceil : ⌈θ / (2 * Real.pi)⌉ = ⌊θ / (2 * Real.pi)⌋ := by
        conv_lhs => rw [← hsum]
        rw [Int.ceil_intCast]
      have hnz : normalizeAngle θ = 0 := by rw [hfr, hf, mul_zero]
      have hr : jsRem θ (2 * Real.pi) = 0 := by
        rw [jsRem, if_neg (not_le.mpr hq0), hceil]
        have h2 : θ - 2 * Real.pi * ⌊θ / (2 * Real.pi)⌋ = normalizeAngle θ := by
          rw [normalizeAngle]
        rw [h2, hnz]
      unfold isVertical
      rw [hr, hnz, abs_zero]
    · have hfpos : 0 < Int.fract (θ / (2 * Real.pi)) :=
        lt_of_le_of_ne (Int.fract_nonneg _) (Ne.symm hf)
      have hsum := Int.floor_add_fract (θ / (2 * Real.pi))
      have hfl : (⌊θ / (2 * Real.pi)⌋ : ℝ) < θ / (2 * Real.pi) := by linarith
      have hceil : ⌈θ / (2 * Real.pi)⌉ = ⌊θ / (2 * Real.pi)⌋ + 1 := by
        have h1 : ⌈θ / (2 * Real.pi)⌉ ≤ ⌊θ / (2 * Real.pi)⌋ + 1 := by
          rw [Int.ceil_le]
          push_cast
          exact (Int.lt_floor_add_one _).le
        have h2 : ⌊θ / (2 * Real.pi)⌋ + 1 ≤ ⌈θ / (2 * Real.pi)⌉ := by
          rw [Int.add_one_le_iff, Int.lt_ceil]
          exact hfl
        omega
      have hr : jsRem θ (2 * Real.pi) = normalizeAngle θ - 2 * Real.pi := by
        rw [jsRem, if_neg (not_le.mpr hq0), hceil, normalizeAngle]
        push_cast
        ring
      have hnpos : 0 < normalizeAngle θ := by
        rw [hfr]
        exact mul_pos hT hfpos
      have habs : |jsRem θ (2 * Real.pi)| = 2 * Real.pi - normalizeAngle θ := by
        have hlt : normalizeAngle θ < 2 * Real.pi := normalizeAngle_lt θ
        rw [hr, abs_of_neg (by linarith), neg_sub]
      unfold isVertical
      rw [habs]
      constructor
      · rintro (h | h)
        · right; linarith
        · left; linarith
      · rintro (h | h)
        · right; linarith
        · left; linarith

theorem jsRem_small {a : ℝ} (h0 : 0 ≤ a) (h1 : a < 2 * Real.pi) :
    jsRem a (2 * Real.pi) = a := by
  have hT : (0:ℝ) < 2 * Real.pi := two_pi_pos
  have hq0 : 0 ≤ a / (2 * Real.pi) := div_nonneg h0 hT.le
  have hq1 : a / (2 * Real.pi) < 1 := (div_lt_one hT).mpr h1
  have hfloor : ⌊a / (2 * Real.pi)⌋ = 0 :=
    Int.floor_eq_zero_iff.mpr (Set.mem_Ico.mpr ⟨hq0, hq1⟩)
  rw [jsRem, if_pos hq0, hfloor]
  push_cast
  ring

/-- C1: for every real blade angle `θ`, the handler's test
`|θ % 2π| < 0.8 ∨ |θ % 2π| > 2π - 0.8` (JavaScript remainder, negative for
negative `θ`) agrees with `normalizeAngle θ < 0.8 ∨ normalizeAngle θ > 2π - 0.8`
for the normalization of `θ` into `[0, 2π)`; in particular the classifier
accepts `0.8 - ε` and rejects `0.8 + ε` for small positive `ε`. -/
theorem c1_isVertical_normalized (θ ε : ℝ) (hε0 : 0 < ε) (hε8 : ε ≤ 0.8) :
    (isVertical θ ↔
       (normalizeAngle θ < 0.8 ∨ normalizeAngle θ > 2 * Real.pi - 0.8)) ∧
    isVertical (0.8 - ε) ∧ ¬ isVertical (0.8 + ε) := by
  have h6 := two_pi_gt_six
  refine ⟨isVertical_iff_norm θ, ?_, ?_⟩
  · have h1 : jsRem (0.8 - ε) (2 * Real.pi) = 0.8 - ε :=
      jsRem_small (by norm_num; linarith) (by norm_num; linarith)
    unfold isVertical
    rw [h1]
    left
    rw [abs_of_nonneg (by norm_num; linarith)]
    linarith
  · have h1 : jsRem (0.8 + ε) (2 * Real.pi) = 0.8 + ε :=
      jsRem_small (by positivity) (by norm_num; linarith)
    unfold isVertical
    rw [h1, abs_of_nonneg (by positivity)]
    push_neg
    constructor
    · linarith
    · linarith

theorem c1_witness :
    (0:ℝ) < 1 / 2 ∧ ((1:ℝ) / 2 ≤ 0.8) ∧
    ((isVertical (-7) ↔
        (normalizeAngle (-7) < 0.8 ∨ normalizeAngle (-7) > 2 * Real.pi - 0.8)) ∧
      isVertical (0.8 - 1 / 2) ∧ ¬ isVertical (0.8 + 1 / 2)) :=
  ⟨by norm_num, by norm_num,
    c1_isVertical_normalized (-7) (1 / 2) (by norm_num) (by norm_num)⟩

theorem isVertical_zero : isVertical 0 := by
  unfold isVertical
  rw [jsRem_small le_rfl two_pi_pos, abs_zero]
  left
  norm_num

theorem triggerLifeLoss_lives (s : GState) :
    (triggerLifeLoss s).lives = s.lives - 1 := by
  unfold triggerLifeLoss
  split <;> rfl

theorem triggerLifeLoss_bodies (s : GState) :
    (triggerLifeLoss s).bodies = s.bodies := by
  unfold triggerLifeLoss
  split <;> rfl

theorem triggerLifeLoss_playing (s : GState) :
    (triggerLifeLoss s).isPlaying = true → 1 ≤ (triggerLifeLoss s).lives := by
  unfold triggerLifeLoss
  split
  · intro h
    exact absurd h (by simp [triggerGameOver, saveScore])
  · intro _
    next h => show 1 ≤ s.lives - 1; omega

theorem voidCheck_inv (Hc : ℚ) (s : GState) (b : MBody)
    (h3 : s.lives ≤ 3) (h1 : s.isPlaying = true → 1 ≤ s.lives) :
    (voidCheck Hc s b).lives ≤ 3 ∧
    ((voidCheck Hc s b).isPlaying = true → 1 ≤ (voidCheck Hc s b).lives) := by
  unfold voidCheck
  split
  · constructor
    · rw [triggerLifeLoss_lives]
      show s.lives - 1 ≤ 3
      omega
    · exact triggerLifeLoss_playing _
  · exact ⟨h3, h1⟩

theorem foldVoid_inv (Hc : ℚ) (l : List MBody) (s : GState)
    (h3 : s.lives ≤ 3) (h1 : s.isPlaying = true → 1 ≤ s.lives) :
    (l.foldl (voidCheck Hc) s).lives ≤ 3 ∧
    ((l.foldl (voidCheck Hc) s).isPlaying = true →
      1 ≤ (l.foldl (voidCheck Hc) s).lives) := by
  induction l generalizing s with
  | nil => exact ⟨h3, h1⟩
  | cons b t ih =>
    simp only [List.foldl_cons]
    obtain ⟨g3, g1⟩ := voidCheck_inv Hc s b h3 h1
    exact ih _ g3 g1

theorem beforeUpdate_inv (Hc : ℚ) (s : GState)
    (h3 : s.lives ≤ 3) (h1 : s.isPlaying = true → 1 ≤ s.lives) :
    (beforeUpdate Hc s).lives ≤ 3 ∧
    ((beforeUpdate Hc s).isPlaying = true → 1 ≤ (beforeUpdate Hc s).lives) := by
  unfold beforeUpdate
  split
  · exact ⟨h3, h1⟩
  · exact foldVoid_inv Hc s.bodies s h3 h1

theorem mousedownHandler_lives (x ω : ℚ) (now : ℤ) (s : GState) :
    (mousedownHandler x ω now s).lives = s.lives ∧
    (mousedownHandler x ω now s).isPlaying = s.isPlaying := by
  unfold mousedownHandler
  split
  · exact ⟨rfl, rfl⟩
  · split <;> exact ⟨rfl, rfl⟩

theorem collisionPairStep_lives (a b : MBody) (s : GState) :
    (collisionPairStep a b s).lives = s.lives ∧
    (collisionPairStep a b s).isPlaying = s.isPlaying := by
  unfold collisionPairStep
  repeat' split
  all_goals exact ⟨rfl, rfl⟩

theorem createIsland_lives (W Hc : ℚ) (s : GState) :
    (createIsland W Hc s).lives = s.lives ∧
    (createIsland W Hc s).isPlaying = s.isPlaying := by
  unfold createIsland
  cases hm : s.islandRef <;> simp [hm]

theorem resetState_lives (W Hc : ℚ) (s : GState) :
    (resetState W Hc s).lives = 3 ∧ (resetState W Hc s).isPlaying = true := by
  unfold resetState
  obtain ⟨ha, hb⟩ := createIsland_lives W Hc
    { s with lives := 3, swordsOnScreen := 0, isPlaying := true,
             lastSpawnTime := 0, bodies := [] }
  exact ⟨ha, hb⟩

theorem step_inv {W Hc : ℚ} {s s' : GState} (hstep : Step W Hc s s')
    (h3 : s.lives ≤ 3) (h1 : s.isPlaying = true → 1 ≤ s.lives) :
    s'.lives ≤ 3 ∧ (s'.isPlaying = true → 1 ≤ s'.lives) := by
  cases hstep with
  | pointerDown x ω now hω =>
    obtain ⟨ha, hb⟩ := mousedownHandler_lives x ω now s
    rw [ha, hb]
    exact ⟨h3, h1⟩
  | engineUpdate => exact beforeUpdate_inv _ s h3 h1
  | collision a b ha hb =>
    obtain ⟨hc, hd⟩ := collisionPairStep_lives a b s
    rw [hc, hd]
    exact ⟨h3, h1⟩
  | physicsMove f hf => exact ⟨h3, h1⟩
  | restart =>
    obtain ⟨ha, hb⟩ := resetState_lives W Hc s
    rw [ha, hb]
    exact ⟨le_refl 3, fun _ => by omega⟩

theorem initState_lives (W Hc : ℚ) (hs0 : List ℤ) :
    (initState W Hc hs0).lives = 3 ∧ (initState W Hc hs0).isPlaying = true := by
  unfold initState
  obtain ⟨ha, hb⟩ := createIsland_lives W Hc
    { lives := 3, swordsOnScreen := 0, isPlaying := true, lastSpawnTime := 0,
      highScores := hs0, bodies := [], islandRef := none, nextId := 1 }
  exact ⟨ha, hb⟩

theorem fall5000_spec : ∀ b : MBody,
    (fall5000 b).id = b.id ∧ (fall5000 b).label = b.label ∧
    (fall5000 b).isStatic = b.isStatic ∧
    ((fall5000 b).isStatic = true → fall5000 b = b) := by
  intro b
  unfold fall5000
  split
  · exact ⟨rfl, rfl, rfl, fun _ => rfl⟩
  · next hns => exact ⟨rfl, rfl, rfl, fun h => absurd h hns⟩

/-- C2 (amended): in every reachable session state, `lives ≤ maxLives = 3`,
and while the session is still playing `lives ≥ 1`; moreover once `isPlaying`
is false the per-step handler is a no-op, so no further life loss occurs.
The original lower bound `0 ≤ lives` fails when several swords cross the void
threshold in one simulation step (see the counterexample). -/
theorem c2_amended_lives_invariant {W Hc : ℚ} {hs0 : List ℤ} {s : GState}
    (h : Reachable W Hc hs0 s) :
    s.lives ≤ 3 ∧ (s.isPlaying = true → 1 ≤ s.lives) ∧
    (s.isPlaying = false → beforeUpdate Hc s = s) := by
  have key : s.lives ≤ 3 ∧ (s.isPlaying = true → 1 ≤ s.lives) := by
    induction h with
    | refl =>
      obtain ⟨ha, hb⟩ := initState_lives W Hc hs0
      rw [ha, hb]
      exact ⟨by omega, fun _ => by omega⟩
    | tail hra hstep ih => exact step_inv hstep ih.1 ih.2
  refine ⟨key.1, key.2, ?_⟩
  intro hfalse
  unfold beforeUpdate
  rw [if_pos hfalse]

theorem c2_witness :
    (initState 1200 800 [0, 0, 0]).lives ≤ 3 ∧
    ((initState 1200 800 [0, 0, 0]).isPlaying = true →
      1 ≤ (initState 1200 800 [0, 0, 0]).lives) ∧
    ((initState 1200 800 [0, 0, 0]).isPlaying = false →
      beforeUpdate 800 (initState 1200 800 [0, 0, 0]) =
        initState 1200 800 [0, 0, 0]) :=
  c2_amended_lives_invariant Relation.ReflTransGen.refl

/-- C2 (counterexample): a session state with `lives = -1` is reachable: with
one life left, two swords below the void threshold in the same `beforeUpdate`
step each trigger a life loss, because the `isPlaying` guard is only evaluated
at step entry. -/
theorem c2_counterexample :
    ∃ s : GState, Reachable 1200 800 [0, 0, 0] s ∧ s.lives = -1 := by
  refine ⟨_, Relation.ReflTransGen.tail
      (Relation.ReflTransGen.tail
        (Relation.ReflTransGen.tail
          (Relation.ReflTransGen.tail
            (Relation.ReflTransGen.tail
              (Relation.ReflTransGen.tail
                (Relation.ReflTransGen.tail
                  (Relation.ReflTransGen.tail
                    (Relation.ReflTransGen.tail
                      (Relation.ReflTransGen.tail
                        Relation.ReflTransGen.refl
                        (Step.pointerDown 100 0 600 (by norm_num)))
                      (Step.physicsMove fall5000 fall5000_spec))
                    Step.engineUpdate)
                  (Step.pointerDown 100 0 1200 (by norm_num)))
                (Step.physicsMove fall5000 fall5000_spec))
              Step.engineUpdate)
            (Step.pointerDown 100 0 1800 (by norm_num)))
          (Step.pointerDown 100 0 2400 (by norm_num)))
        (Step.physicsMove fall5000 fall5000_spec))
      (Step.engineUpdate), ?_⟩
  · norm_num [initState, createIsland, islandMBody, mousedownHandler, spawnSword,
      newSword, beforeUpdate, voidCheck, triggerLifeLoss, triggerGameOver,
      saveScore, fall5000, List.insertionSort, List.orderedInsert]

/-- C10: while `isPlaying` is false (game over), the `beforeUpdate` handler
performs no work at all — the whole session state, in particular the body set,
the sword counter and `lives`, is left unchanged even if sword bodies lie
below the boundary threshold; such bodies are only disposed of by the next
reset, which leaves exactly the fresh island body in the world. -/
theorem c10_gameover_step_noop (W Hc : ℚ) (s : GState)
    (h : s.isPlaying = false) :
    beforeUpdate Hc s = s ∧
    (resetState W Hc s).bodies = [islandMBody W Hc] := by
  constructor
  · unfold beforeUpdate
    rw [if_pos h]
  · unfold resetState createIsland
    cases hm : s.islandRef <;> simp [hm]

theorem c10_witness :
    beforeUpdate 800 gameOverSample = gameOverSample ∧
    (resetState 1200 800 gameOverSample).bodies = [islandMBody 1200 800] :=
  c10_gameover_step_noop 1200 800 gameOverSample rfl

/-- C6: a pointer-down request is a no-op when not playing or within the
500 ms cooldown; an accepted request creates exactly one new falling body at
the event's x position and spawn height `-500`, sets `lastSpawnTime := now`,
and increments the sword counter by one; consequently, of two requests within
one cooldown window only the first creates a body. -/
theorem c6_spawn_throttle (s : GState) (x ω : ℚ) (now : ℤ) :
    (s.isPlaying = false → mousedownHandler x ω now s = s) ∧
    (now - s.lastSpawnTime < 500 → mousedownHandler x ω now s = s) ∧
    (s.isPlaying = true → 500 ≤ now - s.lastSpawnTime →
      (mousedownHandler x ω now s).bodies = s.bodies ++ [newSword x ω s.nextId] ∧
      (mousedownHandler x ω now s).lastSpawnTime = now ∧
      (mousedownHandler x ω now s).swordsOnScreen = s.swordsOnScreen + 1 ∧
      (newSword x ω s.nextId).posX = x ∧
      (newSword x ω s.nextId).posY = -500 ∧
      (newSword x ω s.nextId).label = "sword" ∧
      (newSword x ω s.nextId).isStatic = false ∧
      (∀ x2 ω2 : ℚ, ∀ now2 : ℤ, now2 - now < 500 →
        mousedownHandler x2 ω2 now2 (mousedownHandler x ω now s) =
          mousedownHandler x ω now s)) := by
  refine ⟨?_, ?_, ?_⟩
  · intro h
    unfold mousedownHandler
    rw [if_pos h]
  · intro h
    unfold mousedownHandler
    by_cases hp : s.isPlaying = false
    · rw [if_pos hp]
    · rw [if_neg hp, if_pos h]
  · intro h1 h2
    have hA : mousedownHandler x ω now s =
        { spawnSword x ω s with lastSpawnTime := now } := by
      unfold mousedownHandler
      rw [if_neg (by simp [h1]), if_neg (not_lt.mpr h2)]
    rw [hA]
    refine ⟨rfl, rfl, rfl, rfl, rfl, rfl, rfl, ?_⟩
    intro x2 ω2 now2 h3
    unfold mousedownHandler
    rw [if_neg (show ¬({ spawnSword x ω s with
          lastSpawnTime := now } : GState).isPlaying = false by
        simp [spawnSword, h1]),
      if_pos (show now2 - ({ spawnSword x ω s with
          lastSpawnTime := now } : GState).lastSpawnTime < 500 from h3)]

theorem c6_witness :
    (initState 1200 800 [0, 0, 0]).isPlaying = true ∧
    500 ≤ (600 : ℤ) - (initState 1200 800 [0, 0, 0]).lastSpawnTime ∧
    (mousedownHandler 100 0 600 (initState 1200 800 [0, 0, 0])).bodies =
      (initState 1200 800 [0, 0, 0]).bodies ++
        [newSword 100 0 (initState 1200 800 [0, 0, 0]).nextId] ∧
    (mousedownHandler 100 0 600 (initState 1200 800 [0, 0, 0])).lastSpawnTime
      = 600 ∧
    mousedownHandler 100 0 900
        (mousedownHandler 100 0 600 (initState 1200 800 [0, 0, 0])) =
      mousedownHandler 100 0 600 (initState 1200 800 [0, 0, 0]) := by
  have h := (c6_spawn_throttle (initState 1200 800 [0, 0, 0]) 100 0 600).2.2
    rfl (by norm_num [initState, createIsland])
  exact ⟨rfl, by norm_num [initState, createIsland], h.1, h.2.1,
    h.2.2.2.2.2.2.2 100 0 900 (by norm_num)⟩

theorem collisionPairStep_pin (a b : MBody) (s : GState)
    (h1 : a.label = "sword") (h2 : a.isStatic = false)
    (h3 : b.label = "ground") (h4 : isVertical a.angle) :
    collisionPairStep a b s = { s with bodies := pinBody a.id s.bodies } := by
  unfold collisionPairStep
  rw [if_pos h1, if_pos ⟨h2, h3⟩, if_pos h4]

/-- C5: a collision pair matching a non-static `"sword"` against the
`"ground"` body with the verticality test passing makes the sword static with
zero linear and angular velocity while keeping it in the body set; any other
pair — two swords, no sword member, a sword against a non-ground body, or an
already-static sword — leaves the session state entirely unchanged. -/
theorem c5_collision_classifier (s : GState) (a b : MBody) :
    (a.label = "sword" → a.isStatic = false → b.label = "ground" →
      isVertical a.angle →
      collisionPairStep a b s = { s with bodies := pinBody a.id s.bodies } ∧
      (a ∈ s.bodies → pinnedOf a ∈ (collisionPairStep a b s).bodies) ∧
      (pinnedOf a).isStatic = true ∧ (pinnedOf a).velX = 0 ∧
      (pinnedOf a).velY = 0 ∧ (pinnedOf a).angularVelocity = 0 ∧
      (pinnedOf a).label = a.label ∧ (pinnedOf a).angle = a.angle ∧
      (collisionPairStep a b s).bodies.length = s.bodies.length) ∧
    (a.label = "sword" → b.label = "sword" → collisionPairStep a b s = s) ∧
    (a.label ≠ "sword" → b.label ≠ "sword" → collisionPairStep a b s = s) ∧
    (a.label = "sword" → b.label ≠ "ground" → collisionPairStep a b s = s) ∧
    (b.label = "sword" → a.label ≠ "sword" → a.label ≠ "ground" →
      collisionPairStep a b s = s) ∧
    (a.label = "sword" → a.isStatic = true → collisionPairStep a b s = s) ∧
    (b.label = "sword" → a.label ≠ "sword" → b.isStatic = true →
      collisionPairStep a b s = s) := by
  refine ⟨?_, ?_, ?_, ?_, ?_, ?_, ?_⟩
  · intro h1 h2 h3 h4
    have heq := collisionPairStep_pin a b s h1 h2 h3 h4
    refine ⟨heq, ?_, rfl, rfl, rfl, rfl, rfl, rfl, ?_⟩
    · intro ha
      rw [heq]
      show pinnedOf a ∈ pinBody a.id s.bodies
      unfold pinBody
      have hmem := List.mem_map_of_mem
        (fun c => if c.id = a.id then pinnedOf c else c) ha
      simpa using hmem
    · rw [heq]
      show (pinBody a.id s.bodies).length = s.bodies.length
      unfold pinBody
      exact List.length_map _ _
  · intro h1 h2
    unfold collisionPairStep
    rw [if_pos h1, if_neg]
    rintro ⟨-, hg⟩
    rw [h2] at hg
    exact absurd hg (by decide)
  · intro ha hb
    unfold collisionPairStep
    rw [if_neg ha, if_neg hb]
  · intro h1 hbg
    unfold collisionPairStep
    rw [if_pos h1, if_neg]
    rintro ⟨-, hg⟩
    exact hbg hg
  · intro hb ha hag
    unfold collisionPairStep
    rw [if_neg ha, if_pos hb, if_neg]
    rintro ⟨-, hg⟩
    exact hag hg
  · intro h1 hstat
    unfold collisionPairStep
    rw [if_pos h1, if_neg]
    rintro ⟨hf, -⟩
    rw [hstat] at hf
    exact absurd hf (by decide)
  · intro hb ha hstat
    unfold collisionPairStep
    rw [if_neg ha, if_pos hb, if_neg]
    rintro ⟨hf, -⟩
    rw [hstat] at hf
    exact absurd hf (by decide)

theorem c5_witness :
    uprightSword.label = "sword" ∧ uprightSword.isStatic = false ∧
    (islandMBody 1200 800).label = "ground" ∧ isVertical uprightSword.angle ∧
    collisionPairStep uprightSword (islandMBody 1200 800) c5Sample =
      { c5Sample with bodies := pinBody uprightSword.id c5Sample.bodies } ∧
    (pinnedOf uprightSword ∈
      (collisionPairStep uprightSword (islandMBody 1200 800) c5Sample).bodies) := by
  have hvert : isVertical uprightSword.angle := isVertical_zero
  have h := (c5_collision_classifier c5Sample uprightSword
    (islandMBody 1200 800)).1 rfl rfl rfl hvert
  exact ⟨rfl, rfl, rfl, hvert, h.1,
    h.2.1 (by simp [c5Sample])⟩

/-- C7: after every `saveScore` — whatever the prior contents of `highScores`,
including the `[0,0,0]` default and any list loaded from storage — the list is
sorted descending, has length at most 3, and consists of the three largest
values (with multiplicity) among the previous entries and the session's final
sword count: the dropped remainder contains only values no larger than any
kept entry. -/
theorem c7_saveScore_top3 (s : GState) :
    List.Sorted (· ≥ ·) (saveScore s).highScores ∧
    (saveScore s).highScores.length ≤ 3 ∧
    ∃ rest : List ℤ,
      ((saveScore s).highScores ++ rest).Perm
        (s.highScores ++ [s.swordsOnScreen]) ∧
      ∀ y ∈ rest, ∀ x ∈ (saveScore s).highScores, y ≤ x := by
  simp only [saveScore]
  have hsorted := List.sorted_insertionSort (α := ℤ) (· ≥ ·)
    (s.highScores ++ [s.swordsOnScreen])
  have hperm := List.perm_insertionSort (α := ℤ) (· ≥ ·)
    (s.highScores ++ [s.swordsOnScreen])
  have hsplit := List.take_append_drop 3
    (List.insertionSort (· ≥ ·) (s.highScores ++ [s.swordsOnScreen]))
  refine ⟨hsorted.sublist (List.take_sublist 3 _), ?_, ?_⟩
  · rw [List.length_take]
    exact min_le_left _ _
  · refine ⟨(List.insertionSort (· ≥ ·)
      (s.highScores ++ [s.swordsOnScreen])).drop 3, ?_, ?_⟩
    · rw [hsplit]
      exact hperm
    · intro y hy x hx
      have hp : List.Pairwise (α := ℤ) (· ≥ ·)
          (List.insertionSort (· ≥ ·) (s.highScores ++ [s.swordsOnScreen])) :=
        hsorted
      rw [← hsplit] at hp
      exact (List.pairwise_append.mp hp).2.2 x hx y hy

/-- C8: `Game.reset` is idempotent and restores the initial state: after one
reset, `lives = 3`, the sword counter is 0, `isPlaying = true`,
`lastSpawnTime = 0`, and the physics world holds exactly the one fresh terrain
body (no orphaned static bodies); resetting again yields the identical
state. -/
theorem c8_reset_idempotent (W Hc : ℚ) (s : GState) :
    (resetState W Hc s).lives = 3 ∧
    (resetState W Hc s).swordsOnScreen = 0 ∧
    (resetState W Hc s).isPlaying = true ∧
    (resetState W Hc s).lastSpawnTime = 0 ∧
    (resetState W Hc s).bodies = [islandMBody W Hc] ∧
    resetState W Hc (resetState W Hc s) = resetState W Hc s := by
  unfold resetState createIsland
  cases hm : s.islandRef <;> simp [hm]

theorem iWidth_eq (W : ℝ) : iWidth W = W / 4 := by
  unfold iWidth iEndX iStartX
  ring

theorem iWidth_pos {W : ℝ} (hW : 0 < W) : 0 < iWidth W := by
  rw [iWidth_eq]
  positivity

theorem bottom_x_range {W : ℝ} (hW : 0 < W) {k : ℕ}
    (hk : k < iSampleCount W) :
    0 ≤ iWidth W - 15 * k ∧ iWidth W - 15 * k ≤ iWidth W := by
  have hw : 0 < iWidth W := iWidth_pos hW
  have h0 : (0:ℤ) ≤ ⌊iWidth W / 15⌋ := Int.floor_nonneg.mpr (by positivity)
  unfold iSampleCount at hk
  have hk' : (k:ℤ) ≤ ⌊iWidth W / 15⌋ := by omega
  have hkr : (k:ℝ) ≤ iWidth W / 15 := by
    calc (k:ℝ) ≤ (⌊iWidth W / 15⌋ : ℝ) := by exact_mod_cast hk'
      _ ≤ iWidth W / 15 := Int.floor_le _
  constructor
  · linarith
  · have hpos : (0:ℝ) ≤ 15 * k := by positivity
    linarith

theorem bottom_arc_nonneg {W x : ℝ} (hW : 0 < W) (h0 : 0 ≤ x)
    (h1 : x ≤ iWidth W) : 0 ≤ Real.sin (x / iWidth W * Real.pi) := by
  have hw : 0 < iWidth W := iWidth_pos hW
  apply Real.sin_nonneg_of_nonneg_of_le_pi
  · positivity
  · have hx1 : x / iWidth W ≤ 1 := (div_le_one hw).mpr h1
    nlinarith [Real.pi_pos]

/-- C3 (amended): for every noise source bounded by 1 in absolute value and
every positive viewport width, every bottom-pass y-value is at least the
nominal surface height minus the bottom noise amplitude 60; the original claim
(bottom y ≥ nominal surface everywhere) fails at the span endpoints where the
sine belly vanishes and negative noise lifts the bottom above the surface. -/
theorem c3_amended_bottom_depth (noise : ℝ → ℝ → ℝ) (W Hc : ℝ)
    (hn : ∀ x y, |noise x y| ≤ 1) (hW : 0 < W) :
    ∀ p ∈ bottomPass noise W Hc, iSurfaceY Hc - 60 ≤ p.2 := by
  intro p hp
  unfold bottomPass at hp
  rw [List.mem_map] at hp
  obtain ⟨k, hk, rfl⟩ := hp
  rw [List.mem_range] at hk
  obtain ⟨hx0, hx1⟩ := bottom_x_range hW hk
  have harc := bottom_arc_nonneg hW hx0 hx1
  have hb' : -1 ≤ noise ((iWidth W - 15 * k + iStartX W) * (1 / 100)) 100 :=
    (abs_le.mp (hn _ _)).1
  unfold bottomPoint
  simp only
  linarith

theorem c3_witness :
    (∀ x y, |zeroNoise x y| ≤ 1) ∧ (0:ℝ) < 1200 ∧
    iSurfaceY 800 - 60 ≤
      (bottomPoint zeroNoise 1200 800 (iWidth 1200 - 15 * ((0:ℕ):ℝ))).2 := by
  have h1 : ∀ x y : ℝ, |zeroNoise x y| ≤ 1 := by
    intro x y
    simp [zeroNoise]
  refine ⟨h1, by norm_num, ?_⟩
  apply c3_amended_bottom_depth zeroNoise 1200 800 h1 (by norm_num)
  unfold bottomPass
  apply List.mem_map_of_mem
  rw [List.mem_range]
  unfold iSampleCount
  omega

/-- C3 (counterexample): with the legal bounded noise source constantly
`-1/2`, the bottom-pass sample at the far span endpoint (where the sine belly
vanishes) lies strictly above the nominal surface, so the landmass does not
have positive thickness at every sample. -/
theorem c3_counterexample :
    (∀ x y, |negHalfNoise x y| ≤ 1) ∧
    ∃ p ∈ bottomPass negHalfNoise 1200 800, p.2 < iSurfaceY 800 := by
  constructor
  · intro x y
    rw [negHalfNoise]
    norm_num [abs_le]
  · refine ⟨bottomPoint negHalfNoise 1200 800 (iWidth 1200 - 15 * ((0:ℕ):ℝ)),
      ?_, ?_⟩
    · unfold bottomPass
      apply List.mem_map_of_mem
      rw [List.mem_range]
      unfold iSampleCount
      omega
    · have hw : iWidth 1200 = 300 := by
        rw [iWidth_eq]
        norm_num
      unfold bottomPoint negHalfNoise iSurfaceY
      rw [hw]
      norm_num [Real.sin_pi]

theorem islandVertices_length (noise : ℝ → ℝ → ℝ) (W Hc : ℝ) :
    (islandVertices noise W Hc).length = 2 * iSampleCount W := by
  unfold islandVertices topPass bottomPass
  simp [List.length_append, List.length_map, List.length_range]
  ring

theorem islandVertices_head (noise : ℝ → ℝ → ℝ) (W Hc : ℝ) :
    (islandVertices noise W Hc).head? = some (topPoint noise W Hc 0) := by
  unfold islandVertices topPass
  obtain ⟨m, hm⟩ : ∃ m, iSampleCount W = m + 1 :=
    ⟨(⌊iWidth W / 15⌋).toNat, rfl⟩
  rw [hm, List.range_succ_eq_map]
  simp

theorem islandVertices_getLast (noise : ℝ → ℝ → ℝ) (W Hc : ℝ) :
    (islandVertices noise W Hc).getLast? =
      some (bottomPoint noise W Hc
        (iWidth W - 15 * ((iSampleCount W - 1 : ℕ) : ℝ))) := by
  unfold islandVertices bottomPass
  obtain ⟨m, hm⟩ : ∃ m, iSampleCount W = m + 1 :=
    ⟨(⌊iWidth W / 15⌋).toNat, rfl⟩
  rw [hm, List.range_succ, List.map_append, List.map_singleton,
    ← List.append_assoc, List.getLast?_concat]
  simp

theorem bottomPass_head (noise : ℝ → ℝ → ℝ) (W Hc : ℝ) :
    (bottomPass noise W Hc).head? =
      some (bottomPoint noise W Hc (iWidth W)) := by
  unfold bottomPass
  obtain ⟨m, hm⟩ : ∃ m, iSampleCount W = m + 1 :=
    ⟨(⌊iWidth W / 15⌋).toNat, rfl⟩
  rw [hm, List.range_succ_eq_map]
  simp

theorem sampleCount_cast {W : ℝ} (hW : 0 < W) :
    ((iSampleCount W : ℕ) : ℤ) = ⌊iWidth W / 15⌋ + 1 := by
  have h0 : (0:ℤ) ≤ ⌊iWidth W / 15⌋ :=
    Int.floor_nonneg.mpr (div_nonneg (iWidth_pos hW).le (by norm_num))
  unfold iSampleCount
  push_cast
  omega

theorem sampleCount_sub_one_cast {W : ℝ} (hW : 0 < W) :
    ((iSampleCount W - 1 : ℕ) : ℝ) = ((⌊iWidth W / 15⌋ : ℤ) : ℝ) := by
  have h0 : (0:ℤ) ≤ ⌊iWidth W / 15⌋ :=
    Int.floor_nonneg.mpr (div_nonneg (iWidth_pos hW).le (by norm_num))
  unfold iSampleCount
  rw [Nat.add_sub_cancel]
  norm_cast
  omega

/-- C9 (amended): for every noise source and positive viewport width, the
vertex count equals `2 * (⌊span/step⌋ + 1)`, which is exactly twice the
horizontal sample count and lies between `2 * ⌈span/step⌉` and
`2 * ⌈span/step⌉ + 2`; the first point is the top pass at `x = 0` and the
last point is the bottom pass at `x = span - 15 * ⌊span/15⌋`, so the first and
last points are horizontally within one step of each other (the vertical gap
is bounded only by the belly arc plus the noise amplitudes, not by one step);
when the step does not divide the span the last sample is still emitted, the
far edge itself opens the bottom pass, and the horizontal overshoot gap is
less than one step. -/
theorem c9_amended_vertex_counts (noise : ℝ → ℝ → ℝ) (W Hc : ℝ)
    (hW : 0 < W) :
    (islandVertices noise W Hc).length = 2 * iSampleCount W ∧
    2 * ⌈iWidth W / 15⌉ ≤ ((islandVertices noise W Hc).length : ℤ) ∧
    ((islandVertices noise W Hc).length : ℤ) ≤ 2 * ⌈iWidth W / 15⌉ + 2 ∧
    (islandVertices noise W Hc).head? = some (topPoint noise W Hc 0) ∧
    (islandVertices noise W Hc).getLast? =
      some (bottomPoint noise W Hc
        (iWidth W - 15 * ((iSampleCount W - 1 : ℕ) : ℝ))) ∧
    |(topPoint noise W Hc 0).1 -
      (bottomPoint noise W Hc
        (iWidth W - 15 * ((iSampleCount W - 1 : ℕ) : ℝ))).1| < 15 ∧
    15 * ((iSampleCount W - 1 : ℕ) : ℝ) ≤ iWidth W ∧
    iWidth W - 15 * ((iSampleCount W - 1 : ℕ) : ℝ) < 15 ∧
    (bottomPass noise W Hc).head? =
      some (bottomPoint noise W Hc (iWidth W)) := by
  have hsc := sampleCount_cast hW
  have hM := sampleCount_sub_one_cast hW
  have hfl := Int.floor_le (iWidth W / 15)
  have hfl1 := Int.lt_floor_add_one (iWidth W / 15)
  have hfc := Int.floor_le_ceil (iWidth W / 15)
  have hcf := Int.ceil_le_floor_add_one (iWidth W / 15)
  have hlow : 15 * ((iSampleCount W - 1 : ℕ) : ℝ) ≤ iWidth W := by
    rw [hM]
    linarith
  have hhigh : iWidth W - 15 * ((iSampleCount W - 1 : ℕ) : ℝ) < 15 := by
    rw [hM]
    linarith
  refine ⟨islandVertices_length noise W Hc, ?_, ?_,
    islandVertices_head noise W Hc, islandVertices_getLast noise W Hc,
    ?_, hlow, hhigh, bottomPass_head noise W Hc⟩
  · rw [islandVertices_length]
    push_cast
    omega
  · rw [islandVertices_length]
    push_cast
    omega
  · have hgap : (topPoint noise W Hc 0).1 -
        (bottomPoint noise W Hc
          (iWidth W - 15 * ((iSampleCount W - 1 : ℕ) : ℝ))).1 =
        -(iWidth W - 15 * ((iSampleCount W - 1 : ℕ) : ℝ)) := by
      unfold topPoint bottomPoint
      simp only
      ring
    rw [hgap, abs_neg, abs_of_nonneg (by linarith)]
    linarith

theorem c9_witness :
    (0:ℝ) < 1200 ∧
    (islandVertices zeroNoise 1200 800).length = 2 * iSampleCount 1200 ∧
    (islandVertices zeroNoise 1200 800).head? =
      some (topPoint zeroNoise 1200 800 0) :=
  ⟨by norm_num, (c9_amended_vertex_counts zeroNoise 1200 800 (by norm_num)).1,
    (c9_amended_vertex_counts zeroNoise 1200 800 (by norm_num)).2.2.2.1⟩

theorem gapNoise_bounded : ∀ x y : ℝ, |gapNoise x y| ≤ 1 := by
  intro x y
  unfold gapNoise
  rw [abs_le]
  have h0 : (0:ℝ) ≤ min 2 (max 0 (y / 50)) :=
    le_min (by norm_num) (le_max_left 0 _)
  have h2 : min 2 (max 0 (y / 50)) ≤ 2 := min_le_left _ _
  constructor <;> linarith

theorem iSampleCount_1200 : iSampleCount 1200 = 21 := by
  unfold iSampleCount
  have h : iWidth 1200 / 15 = ((20:ℤ):ℝ) := by
    rw [iWidth_eq]
    norm_num
  rw [h, Int.floor_intCast]
  rfl

/-- C9 (counterexample): with the legal bounded continuous noise source
`gapNoise` (worth 1 on the top pass's noise row and -1 on the bottom pass's),
viewport 1200 × 800, the step 15 divides the span 300, so the first vertex is
`(360, 690)` and the last vertex is `(360, 590)`: their distance is 100, far
more than one step — the point sequence is not closed within one step. -/
theorem c9_counterexample :
    (∀ x y : ℝ, |gapNoise x y| ≤ 1) ∧
    (islandVertices gapNoise 1200 800).head? =
      some (topPoint gapNoise 1200 800 0) ∧
    (islandVertices gapNoise 1200 800).getLast? =
      some (bottomPoint gapNoise 1200 800
        (iWidth 1200 - 15 * ((iSampleCount 1200 - 1 : ℕ) : ℝ))) ∧
    dist (topPoint gapNoise 1200 800 0)
      (bottomPoint gapNoise 1200 800
        (iWidth 1200 - 15 * ((iSampleCount 1200 - 1 : ℕ) : ℝ))) = 100 ∧
    (15:ℝ) < 100 := by
  refine ⟨gapNoise_bounded, islandVertices_head gapNoise 1200 800,
    islandVertices_getLast gapNoise 1200 800, ?_, by norm_num⟩
  have harg : iWidth 1200 - 15 * ((iSampleCount 1200 - 1 : ℕ) : ℝ) = 0 := by
    rw [iSampleCount_1200, iWidth_eq]
    norm_num
  rw [harg]
  have hp1 : topPoint gapNoise 1200 800 0 = (iStartX 1200, 690) := by
    unfold topPoint gapNoise iSurfaceY
    norm_num
  have hp2 : bottomPoint gapNoise 1200 800 0 = (iStartX 1200, 590) := by
    unfold bottomPoint gapNoise iSurfaceY
    rw [zero_div, zero_mul, Real.sin_zero]
    norm_num
  rw [hp1, hp2, Prod.dist_eq]
  simp [Real.dist_eq]
  norm_num

theorem pinBody_mem {a : MBody} {l : List MBody} (ha : a ∈ l) :
    pinnedOf a ∈ pinBody a.id l := by
  unfold pinBody
  have hmem := List.mem_map_of_mem (fun c => if c.id = a.id then pinnedOf c else c) ha
  simpa using hmem

theorem foldVoid_mem (Hc : ℚ) (snapshot : List MBody) (acc : GState) (b : MBody)
    (hb : b ∈ acc.bodies)
    (hsnap : ∀ x ∈ snapshot, x.label = "sword" → x.posY > Hc + 400 →
      x.id ≠ b.id) :
    b ∈ (snapshot.foldl (voidCheck Hc) acc).bodies := by
  induction snapshot generalizing acc with
  | nil => exact hb
  | cons x t ih =>
    simp only [List.foldl_cons]
    apply ih
    · unfold voidCheck
      split
      · next hcond =>
        rw [triggerLifeLoss_bodies]
        show b ∈ acc.bodies.filter (fun y => y.id != x.id)
        rw [List.mem_filter]
        refine ⟨hb, ?_⟩
        have hne := hsnap x (List.mem_cons_self x t) hcond.1 hcond.2
        simp only [bne_iff_ne]
        exact fun h => hne h.symm
      · exact hb
    · intro y hy
      exact hsnap y (List.mem_cons_of_mem x hy)

/-- C4 (amended): the `beforeUpdate` boundary monitor checks only the label
`"sword"` and the position, not the static flag, so it would remove a pinned
(static) blade below the threshold just like a falling one; provided every
static sword lies at or above `canvas.height + 400` (as holds when pinning
happens at ground contact) and body identities are distinct, no static body is
ever removed by the boundary check. -/
theorem c4_amended_static_not_removed (Hc : ℚ) (s : GState)
    (hnodup : (s.bodies.map MBody.id).Nodup)
    (hsafe : ∀ b ∈ s.bodies, b.isStatic = true → b.posY ≤ Hc + 400) :
    ∀ b ∈ s.bodies, b.isStatic = true → b ∈ (beforeUpdate Hc s).bodies := by
  intro b hb hstat
  unfold beforeUpdate
  split
  · exact hb
  · apply foldVoid_mem Hc s.bodies s b hb
    intro x hx hxl hxy heq
    have hxb : x = b := List.inj_on_of_nodup_map hnodup hx hb heq
    rw [hxb] at hxy
    exact absurd hxy (not_lt.mpr (hsafe b hb hstat))

theorem c4_witness :
    (c4Sample.bodies.map MBody.id).Nodup ∧
    (∀ b ∈ c4Sample.bodies, b.isStatic = true → b.posY ≤ 800 + 400) ∧
    staticSwordUp ∈ c4Sample.bodies ∧ staticSwordUp.isStatic = true ∧
    staticSwordUp ∈ (beforeUpdate 800 c4Sample).bodies := by
  have hnodup : (c4Sample.bodies.map MBody.id).Nodup := by
    simp [c4Sample, islandMBody, staticSwordUp, swordBelow2]
  have hsafe : ∀ b ∈ c4Sample.bodies, b.isStatic = true → b.posY ≤ 800 + 400 := by
    intro b hb
    simp only [c4Sample, List.mem_cons, List.not_mem_nil, or_false] at hb
    rcases hb with h | h | h <;> subst h <;> intro hs
    · show ((800:ℚ) - 150) + 250 / 2 ≤ 800 + 400
      norm_num
    · show (650:ℚ) ≤ 800 + 400
      norm_num
    · exact absurd hs (by simp [swordBelow2])
  have hmem : staticSwordUp ∈ c4Sample.bodies := by
    simp [c4Sample]
  exact ⟨hnodup, hsafe, hmem, rfl,
    c4_amended_static_not_removed 800 c4Sample hnodup hsafe staticSwordUp hmem rfl⟩

/-- C4 (counterexample): a pinned blade can be removed and counted as a life
loss.  From page load: spawn a sword, let the physics integrator carry it
below the void threshold, and let a collision-start pair with the ground pin
it there (the collision handler checks only labels, staticness and angle, not
position; the physics-event contract does not constrain where a delivered pair
lies).  The resulting reachable state holds a static sword below the
threshold, and one `beforeUpdate` step removes it and decrements `lives`. -/
theorem c4_counterexample :
    ∃ s : GState, Reachable 1200 800 [0, 0, 0] s ∧
      ∃ b ∈ s.bodies, b.label = "sword" ∧ b.isStatic = true ∧
        b.posY > 800 + 400 ∧
        (beforeUpdate 800 s).lives = s.lives - 1 ∧
        ¬ b.id ∈ (beforeUpdate 800 s).bodies.map MBody.id := by
  have c1 : ¬ ((initState 1200 800 [0, 0, 0]).isPlaying = false) := by
    norm_num [initState, createIsland]
  have c2 : ¬ ((600:ℤ) - (initState 1200 800 [0, 0, 0]).lastSpawnTime < 500) := by
    norm_num [initState, createIsland]
  have hacc : mousedownHandler 100 0 600 (initState 1200 800 [0, 0, 0]) =
      { spawnSword 100 0 (initState 1200 800 [0, 0, 0]) with
        lastSpawnTime := 600 } := by
    unfold mousedownHandler
    rw [if_neg c1, if_neg c2]
  have hlist : (mousedownHandler 100 0 600
        (initState 1200 800 [0, 0, 0])).bodies.map fall5000 =
      [islandMBody 1200 800, fall5000 (newSword 100 0 1)] := by
    rw [hacc]
    rfl
  have hmemA : fall5000 (newSword 100 0 1) ∈
      (mousedownHandler 100 0 600
        (initState 1200 800 [0, 0, 0])).bodies.map fall5000 := by
    rw [hlist]
    exact List.mem_cons_of_mem _ (List.mem_singleton_self _)
  have hmemB : islandMBody 1200 800 ∈
      (mousedownHandler 100 0 600
        (initState 1200 800 [0, 0, 0])).bodies.map fall5000 := by
    rw [hlist]
    exact List.mem_cons_self _ _
  have hpin : collisionPairStep (fall5000 (newSword 100 0 1))
      (islandMBody 1200 800)
      { mousedownHandler 100 0 600 (initState 1200 800 [0, 0, 0]) with
        bodies := (mousedownHandler 100 0 600
          (initState 1200 800 [0, 0, 0])).bodies.map fall5000 } =
      { mousedownHandler 100 0 600 (initState 1200 800 [0, 0, 0]) with
        bodies := pinBody (fall5000 (newSword 100 0 1)).id
          ((mousedownHandler 100 0 600
            (initState 1200 800 [0, 0, 0])).bodies.map fall5000) } :=
    collisionPairStep_pin _ _ _ rfl rfl rfl isVertical_zero
  refine ⟨_, Relation.ReflTransGen.tail
      (Relation.ReflTransGen.tail
        (Relation.ReflTransGen.tail Relation.ReflTransGen.refl
          (Step.pointerDown 100 0 600 (by norm_num)))
        (Step.physicsMove fall5000 fall5000_spec))
      (Step.collision (fall5000 (newSword 100 0 1)) (islandMBody 1200 800)
        hmemA hmemB), ?_⟩
  refine ⟨pinnedOf (fall5000 (newSword 100 0 1)), ?_, rfl, rfl, ?_, ?_, ?_⟩
  · rw [hpin]
    exact pinBody_mem hmemA
  · show (5000:ℚ) > 800 + 400
    norm_num
  · rw [hpin, hlist, hacc]
    norm_num [beforeUpdate, voidCheck, triggerLifeLoss, triggerGameOver,
      saveScore, pinBody, pinnedOf, fall5000, newSword, islandMBody,
      spawnSword, initState, createIsland, List.insertionSort,
      List.orderedInsert]
  · rw [hpin, hlist, hacc]
    norm_num [beforeUpdate, voidCheck, triggerLifeLoss, triggerGameOver,
      saveScore, pinBody, pinnedOf, fall5000, newSword, islandMBody,
      spawnSword, initState, createIsland, List.insertionSort,
      List.orderedInsert]

theorem c7_witness :
    List.Sorted (· ≥ ·) (saveScore gameOverSample).highScores ∧
    (saveScore gameOverSample).highScores.length ≤ 3 ∧
    ∃ rest : List ℤ,
      ((saveScore gameOverSample).highScores ++ rest).Perm
        (gameOverSample.highScores ++ [gameOverSample.swordsOnScreen]) ∧
      ∀ y ∈ rest, ∀ x ∈ (saveScore gameOverSample).highScores, y ≤ x :=
  c7_saveScore_top3 gameOverSample

theorem c8_witness :
    (resetState 1200 800 gameOverSample).lives = 3 ∧
    (resetState 1200 800 gameOverSample).swordsOnScreen = 0 ∧
    (resetState 1200 800 gameOverSample).isPlaying = true ∧
    (resetState 1200 800 gameOverSample).lastSpawnTime = 0 ∧
    (resetState 1200 800 gameOverSample).bodies = [islandMBody 1200 800] ∧
    resetState 1200 800 (resetState 1200 800 gameOverSample) =
      resetState 1200 800 gameOverSample :=
  c8_reset_idempotent 1200 800 gameOverSample
